import Mathlib

/-
Verification of the WASI Component Model wrapper of this Prolog engine
(src/src/wasi_component.rs): a shallow embedding of the wrapper's component
state, machine/query/binding-set/term-ref resources and error formatting,
with theorems about the observable behaviour of the query/consult API.
-/

set_option autoImplicit false
set_option linter.dupNamespace false

/-- Prolog terms as exposed by the embedding API (the `Term` enum re-exported
from the inner machine crate). The float payload is kept as its printed form,
since no property proved here computes with float values; integers are
arbitrary precision and modelled as `Int`. -/
inductive STerm where
  | Atom (s : String)
  | Integer (i : Int)
  | Float (f : String)
  | Rational (num den : Int)
  | String (s : String)
  | List (ts : List STerm)
  | Compound (functor : String) (args : List STerm)
  | Var (v : String)

/-- Term kinds reported by `term_type` (the WIT `term-type` enum, with the
source's variant names `Str` and `Lst`). -/
inductive TermType where
  | Atom
  | Integer
  | Float
  | Str
  | Lst
  | Compound
  | Variable
  | Rational
  deriving DecidableEq

/-- Leaf answers produced by the inner machine's query iteration
(`LeafAnswer` in the inner crate): true, false, an exception term, or a
set of variable bindings. -/
inductive LeafAnswer where
  | True
  | False
  | Exception (t : STerm)
  | LeafAnswer (bindings : List (String × STerm))

/-- The WIT `solution` variant returned by `QueryStateResource::next`:
note that the exception payload is a `String`, not a term reference. -/
inductive Solution where
  | True
  | False
  | Exception (msg : String)
  | Bindings (bindingSetId : Nat)
  deriving DecidableEq

/-- Lookup in an association list, modelling `HashMap::get`. -/
def lookupA {α : Type} (k : Nat) : List (Nat × α) → Option α
  | [] => none
  | (k2, v) :: rest => if k = k2 then some v else lookupA k rest

/-- Removal of a key, modelling `HashMap::remove` (keys are unique in the
maps built by the component, so removing every occurrence is faithful). -/
def eraseK {α : Type} (k : Nat) (l : List (Nat × α)) : List (Nat × α) :=
  l.filter (fun p => p.1 != k)

/-- Insertion modelling `HashMap::insert` (replaces any existing entry). -/
def insertA {α : Type} (k : Nat) (v : α) (l : List (Nat × α)) : List (Nat × α) :=
  (k, v) :: eraseK k l

theorem lookupA_eraseK_self {α : Type} (k : Nat) (l : List (Nat × α)) :
    lookupA k (eraseK k l) = none := by
  induction l with
  | nil => rfl
  | cons p rest ih =>
    rcases p with ⟨k2, v⟩
    by_cases h : k2 = k
    · subst h
      simpa [eraseK] using ih
    · have hne : k ≠ k2 := fun hk => h hk.symm
      simpa [eraseK, lookupA, bne, h, hne] using ih

theorem lookupA_eraseK_ne {α : Type} (k k2 : Nat) (l : List (Nat × α))
    (h : k ≠ k2) : lookupA k (eraseK k2 l) = lookupA k l := by
  induction l with
  | nil => rfl
  | cons p rest ih =>
    rcases p with ⟨k3, v⟩
    by_cases h3 : k3 = k2
    · subst h3
      have hne : k ≠ k3 := h
      simpa [eraseK, lookupA, hne] using ih
    · by_cases hk : k = k3
      · subst hk
        simp [eraseK, lookupA, bne, h3]
      · simpa [eraseK, lookupA, bne, h3, hk] using ih

theorem lookupA_insertA_self {α : Type} (k : Nat) (v : α) (l : List (Nat × α)) :
    lookupA k (insertA k v l) = some v := by
  simp [insertA, lookupA]

theorem lookupA_insertA_ne {α : Type} (k k2 : Nat) (v : α) (l : List (Nat × α))
    (h : k ≠ k2) : lookupA k (insertA k2 v l) = lookupA k l := by
  simp [insertA, lookupA, h, lookupA_eraseK_ne k k2 l h]

/-- Modelled from the spec: the inner Prolog machine (crate modules machine/,
codegen and arenas are not under src/). The wrapper treats it as opaque;
section 6 of the spec makes the module-name to clause-table mapping the
durable unit, so the machine is modelled as exactly that mapping. -/
structure ScryerMachine where
  modules : List (String × String)
  deriving DecidableEq

/-- Modelled from the spec: the inner `QueryState` iterator
(machine/lib_machine, not under src/). Section 4.6 makes `Succeeded`
resumable, so the query is a resumable stream whose items are either leaf
answers or error terms, matching the iterator item type
`Result<LeafAnswer, Term>` consumed by the wrapper. -/
structure ScryerQueryState where
  answers : List (Except STerm LeafAnswer)

/-- Advancing the inner query iterator: pop the next item, keep the rest. -/
def ScryerQueryState.next (qs : ScryerQueryState) :
    Option (Except STerm LeafAnswer) × ScryerQueryState :=
  match qs.answers with
  | [] => (none, qs)
  | a :: rest => (some a, ⟨rest⟩)

/-- Per-machine wrapper state (struct MachineState): the wrapped machine and
the at-most-one active query, tagged with its query id. -/
structure MachineState where
  machine : ScryerMachine
  activeQuery : Option (Nat × ScryerQueryState)

/-- Binding-set payload stored by the component (struct BindingSetData):
the bindings vector in its stored order. -/
structure BindingSetData where
  bindings : List (String × STerm)

/-- The component's thread-local state (struct ComponentState), with the
global id counter `NEXT_ID` folded in as `nextId`. A stored term ref is just
its term (struct TermData has the single field `term`). -/
structure ComponentState where
  nextId : Nat
  machines : List (Nat × MachineState)
  queryToMachine : List (Nat × Nat)
  bindingSets : List (Nat × BindingSetData)
  termRefs : List (Nat × STerm)

/-- Machine configuration record (WIT `machine-config`): optional heap and
stack size hints, the only two fields of the record. -/
structure MachineConfig where
  heap_size : Option Nat
  stack_size : Option Nat

mutual

/-- Debug formatting of a term, modelling the derived Debug output the source
produces with the debug format specifier; the claims rely only on this being
a pre-formatted plain string. -/
def debugFormat : STerm → String
  | .Atom s => "Atom(\"" ++ s ++ "\")"
  | .Integer i => "Integer(" ++ toString i ++ ")"
  | .Float f => "Float(" ++ f ++ ")"
  | .Rational n d => "Rational(" ++ toString n ++ "/" ++ toString d ++ ")"
  | .String s => "String(\"" ++ s ++ "\")"
  | .List ts => "List([" ++ debugFormatItems ts ++ "])"
  | .Compound f args => "Compound(\"" ++ f ++ "\", [" ++ debugFormatItems args ++ "])"
  | .Var v => "Var(\"" ++ v ++ "\")"

/-- Comma-separated debug formatting of a term list. -/
def debugFormatItems : List STerm → String
  | [] => ""
  | [t] => debugFormat t
  | t :: rest => debugFormat t ++ ", " ++ debugFormatItems rest

end

mutual

/-- Translation of fn format_term_simple: plain rendering of terms for use
inside error messages. -/
def format_term_simple : STerm → String
  | .Atom s => s
  | .Integer i => toString i
  | .Float f => f
  | .String s => "\"" ++ s ++ "\""
  | .Var v => v
  | .List items => "[" ++ formatItemsSimple items ++ "]"
  | .Compound name args =>
      match args with
      | [] => name
      | _ => name ++ "(" ++ formatItemsSimple args ++ ")"
  | .Rational n d => toString n ++ "/" ++ toString d

/-- Comma-separated simple formatting of a term list (the join by a comma
and space in the source). -/
def formatItemsSimple : List STerm → String
  | [] => ""
  | [t] => format_term_simple t
  | t :: rest => format_term_simple t ++ ", " ++ formatItemsSimple rest

end

/-- The match on a compound error type inside fn format_error_term; `none`
means the shape was not recognized and control falls through to the generic
fallback line of the source. -/
def formatCompoundErr (et : String) (eargs : List STerm) : Option String :=
  if et = "existence_error" then
    match eargs with
    | .Atom resource :: .Compound name name_args :: _ =>
      if name = "/" then
        match name_args with
        | [.Atom pred, .Integer arity] =>
            some ("Undefined " ++ resource ++ ": " ++ pred ++ "/" ++ toString arity)
        | _ => none
      else none
    | _ => none
  else if et = "type_error" then
    match eargs with
    | .Atom expected :: culprit :: _ =>
        some ("Type error: expected " ++ expected ++ ", got " ++ debugFormat culprit)
    | _ => none
  else if et = "instantiation_error" then
    some "Instantiation error: unbound variable in arithmetic or comparison"
  else if et = "evaluation_error" then
    match eargs with
    | .Atom kind :: _ =>
        if kind = "zero_divisor" then some "Division by zero error"
        else if kind = "undefined" then
          some "Evaluation error: undefined arithmetic operation"
        else if kind = "float_overflow" then
          some "Evaluation error: floating point overflow"
        else if kind = "int_overflow" then
          some "Evaluation error: integer overflow"
        else some ("Evaluation error: " ++ kind)
    | _ => none
  else if et = "syntax_error" then
    match eargs with
    | .Atom msg :: _ => some ("Syntax error: " ++ msg)
    | _ => none
  else if et = "domain_error" then
    match eargs with
    | .Atom domain :: culprit :: _ =>
        some ("Domain error: " ++ format_term_simple culprit
              ++ " is not in domain " ++ domain)
    | _ => none
  else none

/-- Translation of fn format_error_term: user-friendly message for a standard
`error/2` term, falling back to a debug rendering otherwise. -/
def format_error_term (term : STerm) : String :=
  let known : Option String :=
    match term with
    | .Compound f args =>
      if f = "error" then
        match args with
        | [a0, _] =>
          match a0 with
          | .Atom et =>
              if et = "instantiation_error" then
                some "Instantiation error: unbound variable in arithmetic or comparison"
              else some ("Error: " ++ et)
          | .Compound et eargs => formatCompoundErr et eargs
          | _ => none
        | _ => none
      else none
    | _ => none
  match known with
  | some s => s
  | none => "Runtime error: " ++ debugFormat term

/-- Translation of fn convert_leaf_answer: maps an inner leaf answer to the
WIT solution, allocating a binding-set resource for answers with bindings;
exceptions become a debug-formatted string, and no term ref is allocated. -/
def convert_leaf_answer (answer : LeafAnswer) (s : ComponentState) :
    Solution × ComponentState :=
  match answer with
  | .True => (Solution.True, s)
  | .False => (Solution.False, s)
  | .Exception t => (Solution.Exception (debugFormat t), s)
  | .LeafAnswer bindings =>
      let bid := s.nextId
      (Solution.Bindings bid,
        { s with nextId := s.nextId + 1,
                 bindingSets := insertA bid ⟨bindings⟩ s.bindingSets })

/-- Allocation of one fresh term-ref resource per term, in order, modelling
the per-element `next_id` plus `term_refs.insert` loop shared by `as_list`
and `as_compound`. -/
def allocTermRefs (ts : List STerm) (s : ComponentState) :
    List Nat × ComponentState :=
  match ts with
  | [] => ([], s)
  | t :: rest =>
      let tid := s.nextId
      let s1 := { s with nextId := s.nextId + 1,
                         termRefs := insertA tid t s.termRefs }
      let (ids, s2) := allocTermRefs rest s1
      (tid :: ids, s2)

/-- Translation of GuestMachine::new for MachineResource: the heap and stack
size hints of the configuration are accepted but unused (both bodies are
commented as pending in the source), and the machine produced is the builder's
`build()` result, passed in here as `built` because the builder lives in the
inner crate. -/
def MachineResource.new (built : ScryerMachine) (config : MachineConfig)
    (s : ComponentState) : Nat × ComponentState :=
  let _ := config.heap_size
  let _ := config.stack_size
  let machineState : MachineState := { machine := built, activeQuery := none }
  let id := s.nextId
  (id, { s with nextId := s.nextId + 1,
                machines := insertA id machineState s.machines })

/-- Translation of MachineResource::consult_module_string. `innerC` stands
for the inner machine's `consult_module_string`, which returns no error to
this caller (the source returns `Ok(())` unconditionally after the call,
with error handling marked as pending). -/
def MachineResource.consult_module_string
    (innerC : ScryerMachine → String → String → ScryerMachine)
    (machId : Nat) (module_name program : String) (s : ComponentState) :
    Except String Unit × ComponentState :=
  match lookupA machId s.machines with
  | none => (Except.error "Machine not found", s)
  | some ms =>
    if ms.activeQuery.isSome then
      (Except.error "Cannot consult module while query is active", s)
    else
      let m2 := innerC ms.machine module_name program
      (Except.ok (),
       { s with machines :=
          insertA machId (MachineState.mk m2 ms.activeQuery) s.machines })

/-- Substring test used for the parse-error message cleanup (the source's
`contains`): splitting on a nonempty needle yields more than one part
exactly when the needle occurs. -/
def containsSub (needle hay : String) : Bool :=
  (hay.splitOn needle).length > 1

/-- The source's strip of the parse-error marker with a fallback to the whole
message (`strip_prefix(..).unwrap_or(..)`). -/
def stripParseErrMarker (e : String) : String :=
  if ("Parse error: ".isPrefixOf e) then e.drop "Parse error: ".length else e

/-- Translation of MachineResource::run_query. `innerRQ` stands for the inner
machine's `run_query_safe`. A fresh query id is drawn first; any previously
active query is taken from the machine and its id is removed from the
query-to-machine map before the new query is compiled; on success the new
query becomes the machine's active query and is registered in the map. -/
def MachineResource.run_query
    (innerRQ : ScryerMachine → String → Except String ScryerQueryState)
    (machId : Nat) (query : String) (s : ComponentState) :
    Except String Nat × ComponentState :=
  match lookupA machId s.machines with
  | none => (Except.error "Machine not found", s)
  | some ms =>
    let queryId := s.nextId
    let s1 := { s with nextId := s.nextId + 1 }
    let cleaned : MachineState × ComponentState :=
      match ms.activeQuery with
      | some (oldId, _) =>
          ({ ms with activeQuery := none },
           { s1 with queryToMachine := eraseK oldId s1.queryToMachine })
      | none => (ms, s1)
    let ms1 := cleaned.1
    let s2 := cleaned.2
    match innerRQ ms1.machine query with
    | Except.error e =>
        let msg := if containsSub "Parse error" e then
            "Syntax error: " ++ stripParseErrMarker e
          else e
        (Except.error msg,
         { s2 with machines := insertA machId ms1 s2.machines })
    | Except.ok qs =>
        let ms2 := { ms1 with activeQuery := some (queryId, qs) }
        (Except.ok queryId,
         { s2 with machines := insertA machId ms2 s2.machines,
                   queryToMachine := insertA queryId machId s2.queryToMachine })

/-- The write-back of a machine's active-query slot, standing for the in-place
mutation performed through the machine's shared cell in the source. -/
def storeActive (machineId : Nat) (ms : MachineState)
    (aq : Option (Nat × ScryerQueryState)) (s : ComponentState) : ComponentState :=
  { s with machines := insertA machineId (MachineState.mk ms.machine aq) s.machines }

/-- Translation of GuestQueryState::next for QueryStateResource: find the
owning machine through the query-to-machine map, check the query is still the
machine's active one, advance the stored inner state in place, convert leaf
answers, format error terms, and clean up on exhaustion. -/
def QueryStateResource.next (qid : Nat) (s : ComponentState) :
    Except String (Option Solution) × ComponentState :=
  match lookupA qid s.queryToMachine with
  | none => (Except.error "QueryState not found", s)
  | some machineId =>
    match lookupA machineId s.machines with
    | none => (Except.error "Machine not found", s)
    | some ms =>
      match ms.activeQuery with
      | some (activeId, qs) =>
        if activeId = qid then
          match qs.answers with
          | Except.ok leaf :: rest =>
            let s1 := storeActive machineId ms (some (activeId, ScryerQueryState.mk rest)) s
            let conv := convert_leaf_answer leaf s1
            (Except.ok (some conv.1), conv.2)
          | Except.error t :: rest =>
            let s1 := storeActive machineId ms (some (activeId, ScryerQueryState.mk rest)) s
            (Except.error (format_error_term t), s1)
          | [] =>
            let s1 := storeActive machineId ms none s
            (Except.ok none, { s1 with queryToMachine := eraseK qid s1.queryToMachine })
        else (Except.error "Query is no longer active", s)
      | none => (Except.error "Query is no longer active", s)

/-- Translation of GuestBindingSet::variables: the variable names in their
stored order (or the empty list for a missing resource). -/
def BindingSetResource.variables (bid : Nat) (s : ComponentState) : List String :=
  match lookupA bid s.bindingSets with
  | none => []
  | some data => data.bindings.map Prod.fst

/-- Translation of GuestBindingSet::get_binding: find the first binding with
the requested name and allocate a fresh term-ref resource for its term;
an unknown name allocates nothing. -/
def BindingSetResource.get_binding (bid : Nat) (var_name : String)
    (s : ComponentState) : Option Nat × ComponentState :=
  match lookupA bid s.bindingSets with
  | none => (none, s)
  | some data =>
    match data.bindings.find? (fun p => p.1 == var_name) with
    | none => (none, s)
    | some p =>
        let tid := s.nextId
        (some tid,
         { s with nextId := s.nextId + 1,
                  termRefs := insertA tid p.2 s.termRefs })

/-- The per-term-kind arm of GuestTermRef::term_type. -/
def term_type_of : STerm → TermType
  | .Atom _ => TermType.Atom
  | .Integer _ => TermType.Integer
  | .Float _ => TermType.Float
  | .String _ => TermType.Str
  | .List _ => TermType.Lst
  | .Compound _ _ => TermType.Compound
  | .Var _ => TermType.Variable
  | .Rational _ _ => TermType.Rational

/-- Translation of GuestTermRef::term_type, including the source's fallback
to the atom kind for a dangling resource id. -/
def TermRefResource.term_type (tid : Nat) (s : ComponentState) : TermType :=
  match lookupA tid s.termRefs with
  | none => TermType.Atom
  | some t => term_type_of t

/-- Translation of GuestTermRef::as_list: for a list term, allocate one fresh
term-ref resource per element, in element order. -/
def TermRefResource.as_list (tid : Nat) (s : ComponentState) :
    Option (List Nat) × ComponentState :=
  match lookupA tid s.termRefs with
  | none => (none, s)
  | some (STerm.List ts) =>
      let alloc := allocTermRefs ts s
      (some alloc.1, alloc.2)
  | some _ => (none, s)

/-- Translation of GuestTermRef::as_compound: for a compound term, the functor
name together with one fresh term-ref resource per argument, in argument
order (the WIT `compound-parts` record). -/
def TermRefResource.as_compound (tid : Nat) (s : ComponentState) :
    Option (String × List Nat) × ComponentState :=
  match lookupA tid s.termRefs with
  | none => (none, s)
  | some (STerm.Compound f args) =>
      let alloc := allocTermRefs args s
      (some (f, alloc.1), alloc.2)
  | some _ => (none, s)

theorem convert_leaf_answer_machines (answer : LeafAnswer) (s : ComponentState) :
    (convert_leaf_answer answer s).2.machines = s.machines := by
  cases answer <;> rfl

theorem convert_leaf_answer_queryToMachine (answer : LeafAnswer) (s : ComponentState) :
    (convert_leaf_answer answer s).2.queryToMachine = s.queryToMachine := by
  cases answer <;> rfl

theorem convert_leaf_answer_termRefs (answer : LeafAnswer) (s : ComponentState) :
    (convert_leaf_answer answer s).2.termRefs = s.termRefs := by
  cases answer <;> rfl

theorem next_not_mapped (qid : Nat) (s : ComponentState)
    (h : lookupA qid s.queryToMachine = none) :
    QueryStateResource.next qid s = (Except.error "QueryState not found", s) := by
  unfold QueryStateResource.next
  rw [h]

theorem next_solution_step (qid machineId : Nat) (s : ComponentState)
    (ms : MachineState) (qs : ScryerQueryState)
    (leaf : LeafAnswer) (rest : List (Except STerm LeafAnswer))
    (hmap : lookupA qid s.queryToMachine = some machineId)
    (hms : lookupA machineId s.machines = some ms)
    (hq : ms.activeQuery = some (qid, qs))
    (ha : qs.answers = Except.ok leaf :: rest) :
    QueryStateResource.next qid s =
      (Except.ok (some (convert_leaf_answer leaf
          (storeActive machineId ms (some (qid, ScryerQueryState.mk rest)) s)).1),
       (convert_leaf_answer leaf
          (storeActive machineId ms (some (qid, ScryerQueryState.mk rest)) s)).2) := by
  unfold QueryStateResource.next
  simp [hmap, hms, hq, ha]

theorem next_error_step (qid machineId : Nat) (s : ComponentState)
    (ms : MachineState) (qs : ScryerQueryState)
    (t : STerm) (rest : List (Except STerm LeafAnswer))
    (hmap : lookupA qid s.queryToMachine = some machineId)
    (hms : lookupA machineId s.machines = some ms)
    (hq : ms.activeQuery = some (qid, qs))
    (ha : qs.answers = Except.error t :: rest) :
    QueryStateResource.next qid s =
      (Except.error (format_error_term t),
       storeActive machineId ms (some (qid, ScryerQueryState.mk rest)) s) := by
  unfold QueryStateResource.next
  simp [hmap, hms, hq, ha]

theorem next_exhausted_step (qid machineId : Nat) (s : ComponentState)
    (ms : MachineState) (qs : ScryerQueryState)
    (hmap : lookupA qid s.queryToMachine = some machineId)
    (hms : lookupA machineId s.machines = some ms)
    (hq : ms.activeQuery = some (qid, qs))
    (ha : qs.answers = []) :
    QueryStateResource.next qid s =
      (Except.ok none,
       { storeActive machineId ms none s with
         queryToMachine := eraseK qid (storeActive machineId ms none s).queryToMachine }) := by
  unfold QueryStateResource.next
  simp [hmap, hms, hq, ha]

theorem allocTermRefs_spec (ts : List STerm) (s : ComponentState) :
    (allocTermRefs ts s).2.nextId = s.nextId + ts.length
  ∧ (∀ k, k < s.nextId →
        lookupA k (allocTermRefs ts s).2.termRefs = lookupA k s.termRefs)
  ∧ ((allocTermRefs ts s).1.map
        (fun i => lookupA i (allocTermRefs ts s).2.termRefs) = ts.map some) := by
  induction ts generalizing s with
  | nil => exact ⟨rfl, fun k _ => rfl, rfl⟩
  | cons t rest ih =>
    set s1 : ComponentState :=
      { s with nextId := s.nextId + 1,
               termRefs := insertA s.nextId t s.termRefs } with hs1
    have hdef : allocTermRefs (t :: rest) s =
        (s.nextId :: (allocTermRefs rest s1).1, (allocTermRefs rest s1).2) := rfl
    obtain ⟨ih1, ih2, ih3⟩ := ih s1
    have hnext1 : s1.nextId = s.nextId + 1 := rfl
    refine ⟨?_, ?_, ?_⟩
    · rw [hdef]
      simp only [List.length_cons]
      rw [ih1, hnext1]
      omega
    · intro k hk
      rw [hdef]
      have hk1 : k < s1.nextId := by rw [hnext1]; omega
      have := ih2 k hk1
      rw [this]
      have hkne : k ≠ s.nextId := by omega
      exact lookupA_insertA_ne k s.nextId t s.termRefs hkne
    · rw [hdef]
      simp only [List.map_cons]
      have hself : lookupA s.nextId (allocTermRefs rest s1).2.termRefs
          = lookupA s.nextId s1.termRefs := by
        apply ih2
        rw [hnext1]; omega
      have hst : lookupA s.nextId s1.termRefs = some t :=
        lookupA_insertA_self s.nextId t s.termRefs
      rw [hself, hst, ih3]

/-- C10: machine construction ignores the heap-size and stack-size hints:
for every builder output and component state, constructing a machine from
any two configurations (the record's only fields are those two hints)
yields the same resource id and the same resulting component state. -/
theorem machine_new_ignores_size_hints
    (built : ScryerMachine) (s : ComponentState)
    (h1 k1 h2 k2 : Option Nat) :
    MachineResource.new built (MachineConfig.mk h1 k1) s
      = MachineResource.new built (MachineConfig.mk h2 k2) s := rfl

/-- C9: while a machine has an active query, consult_module_string is
rejected with the active-query error, and the component state - in
particular the machine's clause database and the stored query state - is
returned unchanged. -/
theorem consult_while_query_active_rejected
    (innerC : ScryerMachine → String → String → ScryerMachine)
    (machId : Nat) (module_name program : String) (s : ComponentState)
    (ms : MachineState) (q : Nat × ScryerQueryState)
    (hms : lookupA machId s.machines = some ms)
    (hq : ms.activeQuery = some q) :
    MachineResource.consult_module_string innerC machId module_name program s
      = (Except.error "Cannot consult module while query is active", s) := by
  unfold MachineResource.consult_module_string
  simp [hms, hq]

/-- Clause database of a sample machine used by concrete scenarios. -/
def witnessMachine : ScryerMachine := ScryerMachine.mk [("user", "p(a).")]

/-- Component state with one machine whose query 2 is active with one
pending true answer. -/
def activeQueryComponent : ComponentState :=
  { nextId := 3
  , machines := [(1, MachineState.mk witnessMachine
      (some (2, ScryerQueryState.mk [Except.ok LeafAnswer.True])))]
  , queryToMachine := [(2, 1)]
  , bindingSets := []
  , termRefs := [] }

/-- C9 witness: the rejection theorem applied to the concrete state with an
active query. -/
theorem consult_while_query_active_rejected_witness :
    MachineResource.consult_module_string (fun m _ _ => m) 1 "m" "p(b)."
        activeQueryComponent
      = (Except.error "Cannot consult module while query is active",
         activeQueryComponent) :=
  consult_while_query_active_rejected (fun m _ _ => m) 1 "m" "p(b)."
    activeQueryComponent
    (MachineState.mk witnessMachine
      (some (2, ScryerQueryState.mk [Except.ok LeafAnswer.True])))
    (2, ScryerQueryState.mk [Except.ok LeafAnswer.True]) rfl rfl

/-- C2 (amended): consult_module_string never reports a compile error for
parse or arity problems: its result is always plain success or one of the
two bookkeeping errors, it succeeds whenever the machine exists with no
active query regardless of the source text, and every error returns the
state unchanged. -/
theorem consult_result_characterization
    (innerC : ScryerMachine → String → String → ScryerMachine)
    (machId : Nat) (module_name program : String) (s : ComponentState) :
    ((MachineResource.consult_module_string innerC machId module_name program s).1
        = Except.ok ()
      ∨ (MachineResource.consult_module_string innerC machId module_name program s).1
          = Except.error "Machine not found"
      ∨ (MachineResource.consult_module_string innerC machId module_name program s).1
          = Except.error "Cannot consult module while query is active")
  ∧ (∀ e, (MachineResource.consult_module_string innerC machId module_name program s).1
        = Except.error e →
      (MachineResource.consult_module_string innerC machId module_name program s).2 = s)
  ∧ (∀ ms, lookupA machId s.machines = some ms → ms.activeQuery = none →
      (MachineResource.consult_module_string innerC machId module_name program s).1
        = Except.ok ()) := by
  unfold MachineResource.consult_module_string
  cases hms : lookupA machId s.machines with
  | none => simp [hms]
  | some ms =>
    cases hq : ms.activeQuery with
    | none => simp [hms, hq]
    | some q => simp [hms, hq]

/-- Component state with one machine and no active query. -/
def idleComponent : ComponentState :=
  { nextId := 2
  , machines := [(1, MachineState.mk witnessMachine none)]
  , queryToMachine := []
  , bindingSets := []
  , termRefs := [] }

/-- C2 counterexample: consulting source text that is not valid Prolog still
returns plain success - no compile error for the parse problem is reported,
because the wrapper discards the inner consult outcome. -/
theorem consult_garbage_returns_ok :
    (MachineResource.consult_module_string (fun m _ _ => m) 1 "m"
        ":- this is not ( valid prolog" idleComponent).1 = Except.ok () := rfl

/-- C2 witness: the characterization applied to a concrete idle machine. -/
theorem consult_result_characterization_witness :
    (MachineResource.consult_module_string (fun m _ _ => m) 1 "m" "p(b)."
        idleComponent).1 = Except.ok () :=
  (consult_result_characterization (fun m _ _ => m) 1 "m" "p(b)."
      idleComponent).2.2 (MachineState.mk witnessMachine none) rfl rfl

/-- C1 (amended): when next reports exhaustion the query's entry is removed
from the query-to-machine map, and any next call for a query id absent from
that map returns the error "QueryState not found" with the state unchanged;
hence every call after the first exhaustion reports that error rather than
exhaustion again. -/
theorem next_after_exhaustion_not_found (qid : Nat) (s s2 : ComponentState)
    (h : QueryStateResource.next qid s = (Except.ok none, s2)) :
    lookupA qid s2.queryToMachine = none
  ∧ ∀ s0 : ComponentState, lookupA qid s0.queryToMachine = none →
      QueryStateResource.next qid s0 = (Except.error "QueryState not found", s0) := by
  constructor
  · unfold QueryStateResource.next at h
    split at h
    · simp at h
    · split at h
      · simp at h
      · split at h
        · split at h
          · split at h
            · simp at h
            · simp at h
            · injection h with h1 h2
              subst h2
              simp [storeActive, lookupA_eraseK_self]
          · simp at h
        · simp at h
  · intro s0 h0
    exact next_not_mapped qid s0 h0

/-- Component state with one machine whose query 2 has no solutions left. -/
def exhaustedQueryComponent : ComponentState :=
  { nextId := 3
  , machines := [(1, MachineState.mk witnessMachine
      (some (2, ScryerQueryState.mk [])))]
  , queryToMachine := [(2, 1)]
  , bindingSets := []
  , termRefs := [] }

/-- C1 counterexample: on a handle whose query has no further solutions, the
first next call reports exhaustion, but the second next call on the
resulting state reports the error "QueryState not found" - not exhaustion
again as the claim states. -/
theorem next_after_exhaustion_counterexample :
    (QueryStateResource.next 2 exhaustedQueryComponent).1 = Except.ok none
  ∧ (QueryStateResource.next 2
        (QueryStateResource.next 2 exhaustedQueryComponent).2).1
      = Except.error "QueryState not found" := ⟨rfl, rfl⟩

/-- C1 witness: the amended theorem applied to the concrete exhausted query. -/
theorem next_after_exhaustion_not_found_witness :
    lookupA 2 (QueryStateResource.next 2 exhaustedQueryComponent).2.queryToMachine
      = none :=
  (next_after_exhaustion_not_found 2 exhaustedQueryComponent
    (QueryStateResource.next 2 exhaustedQueryComponent).2 rfl).1

/-- C8 (amended): starting a new query on a machine whose query `oldQid` is
active removes `oldQid` from the query-to-machine map (whether or not the
new query compiles), so a subsequent next on the earlier handle returns the
error "QueryState not found" - not a message stating the query is no longer
active - and leaves the state unchanged. -/
theorem run_query_deactivates_previous
    (innerRQ : ScryerMachine → String → Except String ScryerQueryState)
    (machId oldQid : Nat) (query : String) (s : ComponentState)
    (ms : MachineState) (q : ScryerQueryState)
    (hms : lookupA machId s.machines = some ms)
    (hq : ms.activeQuery = some (oldQid, q))
    (hfresh : oldQid ≠ s.nextId) :
    QueryStateResource.next oldQid
        (MachineResource.run_query innerRQ machId query s).2
      = (Except.error "QueryState not found",
         (MachineResource.run_query innerRQ machId query s).2) := by
  apply next_not_mapped
  unfold MachineResource.run_query
  cases hrq : innerRQ (MachineState.mk ms.machine none).machine query with
  | error e =>
    simp only [hms, hq, hrq]
    simp [lookupA_eraseK_self]
  | ok qs =>
    simp only [hms, hq, hrq]
    rw [lookupA_insertA_ne oldQid s.nextId machId _ hfresh]
    simp [lookupA_eraseK_self]

/-- Inner run-query stub used by the concrete replacement scenario: the
compiled query has a single true answer. -/
def replacementInnerRQ : ScryerMachine → String → Except String ScryerQueryState :=
  fun _ _ => Except.ok (ScryerQueryState.mk [Except.ok LeafAnswer.True])

/-- C8 counterexample: after run_query replaces the active query, next on
the old handle yields the error "QueryState not found", which is not an
error stating that the query is no longer active (the source's unreachable
"Query is no longer active" message). -/
theorem stale_query_error_counterexample :
    (QueryStateResource.next 2
        (MachineResource.run_query replacementInnerRQ 1 "q(X)." activeQueryComponent).2).1
      = Except.error "QueryState not found"
  ∧ (QueryStateResource.next 2
        (MachineResource.run_query replacementInnerRQ 1 "q(X)." activeQueryComponent).2).1
      ≠ Except.error "Query is no longer active" := by
  have h1 : (QueryStateResource.next 2
      (MachineResource.run_query replacementInnerRQ 1 "q(X)." activeQueryComponent).2).1
      = Except.error "QueryState not found" := rfl
  refine ⟨h1, ?_⟩
  rw [h1]
  intro hcontra
  have hmsg := Except.error.inj hcontra
  exact absurd hmsg (by decide)

/-- C8 witness: the amended theorem applied to the concrete replacement
scenario. -/
theorem run_query_deactivates_previous_witness :
    QueryStateResource.next 2
        (MachineResource.run_query replacementInnerRQ 1 "q(X)." activeQueryComponent).2
      = (Except.error "QueryState not found",
         (MachineResource.run_query replacementInnerRQ 1 "q(X)." activeQueryComponent).2) :=
  run_query_deactivates_previous replacementInnerRQ 1 2 "q(X)." activeQueryComponent
    (MachineState.mk witnessMachine
      (some (2, ScryerQueryState.mk [Except.ok LeafAnswer.True])))
    (ScryerQueryState.mk [Except.ok LeafAnswer.True]) rfl rfl (by decide)

/-- C3 (amended): an exception reaching the wrapper is surfaced as a
pre-formatted message string, not as an inspectable term reference: a
leaf-answer exception becomes a solution whose exception payload is the
debug-formatted term, an error item becomes the error string produced by
format_error_term, and in neither case is a term-ref resource created. -/
theorem exception_surfaced_as_string
    (qid machineId : Nat) (s : ComponentState) (ms : MachineState)
    (qs : ScryerQueryState) (t : STerm) (rest : List (Except STerm LeafAnswer))
    (hmap : lookupA qid s.queryToMachine = some machineId)
    (hms : lookupA machineId s.machines = some ms)
    (hq : ms.activeQuery = some (qid, qs)) :
    (qs.answers = Except.ok (LeafAnswer.Exception t) :: rest →
      (QueryStateResource.next qid s).1
          = Except.ok (some (Solution.Exception (debugFormat t)))
      ∧ (QueryStateResource.next qid s).2.termRefs = s.termRefs)
  ∧ (qs.answers = Except.error t :: rest →
      (QueryStateResource.next qid s).1 = Except.error (format_error_term t)
      ∧ (QueryStateResource.next qid s).2.termRefs = s.termRefs) := by
  constructor
  · intro ha
    have h := next_solution_step qid machineId s ms qs (LeafAnswer.Exception t)
      rest hmap hms hq ha
    rw [h]
    exact ⟨rfl, rfl⟩
  · intro ha
    have h := next_error_step qid machineId s ms qs t rest hmap hms hq ha
    rw [h]
    exact ⟨rfl, rfl⟩

/-- Sample uncaught exception term: error(type_error(integer, a), is). -/
def sampleExceptionTerm : STerm :=
  STerm.Compound "error"
    [STerm.Compound "type_error" [STerm.Atom "integer", STerm.Atom "a"],
     STerm.Atom "is"]

/-- Component state whose query 2 is about to surface the sample exception
as a leaf answer. -/
def exceptionQueryComponent : ComponentState :=
  { nextId := 3
  , machines := [(1, MachineState.mk witnessMachine
      (some (2, ScryerQueryState.mk
        [Except.ok (LeafAnswer.Exception sampleExceptionTerm)])))]
  , queryToMachine := [(2, 1)]
  , bindingSets := []
  , termRefs := [] }

/-- C3 counterexample: surfacing an uncaught exception yields only a
pre-formatted string payload, and the component registers no term-ref
resource at all, so no term reference carrying the exception term exists
for inspection. -/
theorem exception_payload_counterexample :
    (QueryStateResource.next 2 exceptionQueryComponent).1
      = Except.ok (some (Solution.Exception
          "Compound(\"error\", [Compound(\"type_error\", [Atom(\"integer\"), Atom(\"a\")]), Atom(\"is\")])"))
  ∧ (QueryStateResource.next 2 exceptionQueryComponent).2.termRefs = [] :=
  ⟨rfl, rfl⟩

/-- C3 witness: the amended theorem applied to the concrete exception
scenario. -/
theorem exception_surfaced_as_string_witness :
    (QueryStateResource.next 2 exceptionQueryComponent).1
      = Except.ok (some (Solution.Exception (debugFormat sampleExceptionTerm))) :=
  ((exception_surfaced_as_string 2 1 exceptionQueryComponent
      (MachineState.mk witnessMachine
        (some (2, ScryerQueryState.mk
          [Except.ok (LeafAnswer.Exception sampleExceptionTerm)])))
      (ScryerQueryState.mk [Except.ok (LeafAnswer.Exception sampleExceptionTerm)])
      sampleExceptionTerm [] rfl rfl rfl).1 rfl).1

/-- Modelled from the spec: the exception term the machine raises for the
query `X is 1/0` - per section 8 it is tagged evaluation_error(zero_divisor,
...), with the usual goal context as the second error argument. -/
def oneDivZeroErrorTerm : STerm :=
  STerm.Compound "error"
    [STerm.Compound "evaluation_error" [STerm.Atom "zero_divisor"],
     STerm.Compound "/" [STerm.Atom "is", STerm.Integer 2]]

/-- Modelled from the spec: the inner query state produced by running
`X is 1/0`: one item carrying the zero-divisor evaluation error. -/
def oneDivZeroQueryState : ScryerQueryState :=
  ScryerQueryState.mk [Except.error oneDivZeroErrorTerm]

/-- Component state whose query 2 is the modelled `X is 1/0` query. -/
def oneDivZeroComponent : ComponentState :=
  { nextId := 3
  , machines := [(1, MachineState.mk witnessMachine
      (some (2, oneDivZeroQueryState)))]
  , queryToMachine := [(2, 1)]
  , bindingSets := []
  , termRefs := [] }

/-- C7 (amended): the zero-divisor evaluation error raised by `X is 1/0` is
surfaced by next as the fixed error string "Division by zero error" computed
by format_error_term; the tagged exception term is consumed by the
formatting rather than exposed as a term. -/
theorem one_div_zero_division_error_message
    (qid machineId : Nat) (s : ComponentState) (ms : MachineState)
    (qs : ScryerQueryState) (rest : List (Except STerm LeafAnswer))
    (hmap : lookupA qid s.queryToMachine = some machineId)
    (hms : lookupA machineId s.machines = some ms)
    (hq : ms.activeQuery = some (qid, qs))
    (ha : qs.answers = Except.error oneDivZeroErrorTerm :: rest) :
    QueryStateResource.next qid s
      = (Except.error "Division by zero error",
         storeActive machineId ms (some (qid, ScryerQueryState.mk rest)) s)
  ∧ format_error_term oneDivZeroErrorTerm = "Division by zero error" := by
  have h := next_error_step qid machineId s ms qs oneDivZeroErrorTerm rest
    hmap hms hq ha
  have hfmt : format_error_term oneDivZeroErrorTerm = "Division by zero error" := rfl
  rw [h, hfmt]
  exact ⟨rfl, rfl⟩

/-- C7 counterexample: running the modelled `X is 1/0` query yields an error
string rather than a solution carrying the tagged exception term; no
term-ref resource is created for the exception. -/
theorem one_div_zero_counterexample :
    (QueryStateResource.next 2 oneDivZeroComponent).1
      = Except.error "Division by zero error"
  ∧ (QueryStateResource.next 2 oneDivZeroComponent).2.termRefs = [] :=
  ⟨rfl, rfl⟩

/-- C7 witness: the amended theorem applied to the concrete `X is 1/0`
component state. -/
theorem one_div_zero_division_error_message_witness :
    QueryStateResource.next 2 oneDivZeroComponent
      = (Except.error "Division by zero error",
         storeActive 1
           (MachineState.mk witnessMachine (some (2, oneDivZeroQueryState)))
           (some (2, ScryerQueryState.mk [])) oneDivZeroComponent) :=
  (one_div_zero_division_error_message 2 1 oneDivZeroComponent
    (MachineState.mk witnessMachine (some (2, oneDivZeroQueryState)))
    oneDivZeroQueryState [] rfl rfl rfl rfl).1

/-- C4: after next yields a solution, the machine's stored query state is
exactly the advanced inner state - the machine's clause database untouched
and the query-to-machine entry intact - and the following next call resumes
from exactly that preserved state: it reports exhaustion when nothing
remains, and otherwise converts precisely the next preserved answer. -/
theorem solution_preserves_suspended_state
    (qid machineId : Nat) (s : ComponentState) (ms : MachineState)
    (qs : ScryerQueryState) (leaf : LeafAnswer)
    (rest : List (Except STerm LeafAnswer))
    (hmap : lookupA qid s.queryToMachine = some machineId)
    (hms : lookupA machineId s.machines = some ms)
    (hq : ms.activeQuery = some (qid, qs))
    (ha : qs.answers = Except.ok leaf :: rest) :
    ∃ s2 : ComponentState,
      QueryStateResource.next qid s
        = (Except.ok (some (convert_leaf_answer leaf
            (storeActive machineId ms (some (qid, ScryerQueryState.mk rest)) s)).1),
           s2)
      ∧ lookupA qid s2.queryToMachine = some machineId
      ∧ lookupA machineId s2.machines
          = some (MachineState.mk ms.machine (some (qid, ScryerQueryState.mk rest)))
      ∧ (rest = [] → (QueryStateResource.next qid s2).1 = Except.ok none)
      ∧ (∀ leaf2 rest2, rest = Except.ok leaf2 :: rest2 →
          (QueryStateResource.next qid s2).1
            = Except.ok (some (convert_leaf_answer leaf2
                (storeActive machineId
                  (MachineState.mk ms.machine (some (qid, ScryerQueryState.mk rest)))
                  (some (qid, ScryerQueryState.mk rest2)) s2)).1)) := by
  have h := next_solution_step qid machineId s ms qs leaf rest hmap hms hq ha
  refine ⟨(convert_leaf_answer leaf
    (storeActive machineId ms (some (qid, ScryerQueryState.mk rest)) s)).2,
    h, ?_, ?_, ?_, ?_⟩
  · rw [convert_leaf_answer_queryToMachine]
    exact hmap
  · rw [convert_leaf_answer_machines]
    exact lookupA_insertA_self machineId _ s.machines
  · intro hrest
    have hmap2 : lookupA qid (convert_leaf_answer leaf
        (storeActive machineId ms (some (qid, ScryerQueryState.mk rest)) s)).2.queryToMachine
        = some machineId := by
      rw [convert_leaf_answer_queryToMachine]
      exact hmap
    have hms2 : lookupA machineId (convert_leaf_answer leaf
        (storeActive machineId ms (some (qid, ScryerQueryState.mk rest)) s)).2.machines
        = some (MachineState.mk ms.machine (some (qid, ScryerQueryState.mk rest))) := by
      rw [convert_leaf_answer_machines]
      exact lookupA_insertA_self machineId _ s.machines
    have hstep := next_exhausted_step qid machineId _
      (MachineState.mk ms.machine (some (qid, ScryerQueryState.mk rest)))
      (ScryerQueryState.mk rest) hmap2 hms2 rfl hrest
    rw [hstep]
  · intro leaf2 rest2 hrest
    have hmap2 : lookupA qid (convert_leaf_answer leaf
        (storeActive machineId ms (some (qid, ScryerQueryState.mk rest)) s)).2.queryToMachine
        = some machineId := by
      rw [convert_leaf_answer_queryToMachine]
      exact hmap
    have hms2 : lookupA machineId (convert_leaf_answer leaf
        (storeActive machineId ms (some (qid, ScryerQueryState.mk rest)) s)).2.machines
        = some (MachineState.mk ms.machine (some (qid, ScryerQueryState.mk rest))) := by
      rw [convert_leaf_answer_machines]
      exact lookupA_insertA_self machineId _ s.machines
    have hstep := next_solution_step qid machineId _
      (MachineState.mk ms.machine (some (qid, ScryerQueryState.mk rest)))
      (ScryerQueryState.mk rest) leaf2 rest2 hmap2 hms2 rfl hrest
    rw [hstep]

/-- Component state whose query 2 has two pending answers: true then false. -/
def twoAnswerQueryComponent : ComponentState :=
  { nextId := 3
  , machines := [(1, MachineState.mk witnessMachine
      (some (2, ScryerQueryState.mk
        [Except.ok LeafAnswer.True, Except.ok LeafAnswer.False])))]
  , queryToMachine := [(2, 1)]
  , bindingSets := []
  , termRefs := [] }

/-- C4 witness: the preservation theorem applied to a concrete two-answer
query: the first next yields the first answer and stores the one-answer
remainder intact for the machine. -/
theorem solution_preserves_suspended_state_witness :
    ∃ s2, QueryStateResource.next 2 twoAnswerQueryComponent
        = (Except.ok (some Solution.True), s2)
      ∧ lookupA 2 s2.queryToMachine = some 1
      ∧ lookupA 1 s2.machines = some (MachineState.mk witnessMachine
          (some (2, ScryerQueryState.mk [Except.ok LeafAnswer.False]))) := by
  obtain ⟨s2, h1, h2, h3, _, _⟩ := solution_preserves_suspended_state 2 1
    twoAnswerQueryComponent
    (MachineState.mk witnessMachine
      (some (2, ScryerQueryState.mk
        [Except.ok LeafAnswer.True, Except.ok LeafAnswer.False])))
    (ScryerQueryState.mk [Except.ok LeafAnswer.True, Except.ok LeafAnswer.False])
    LeafAnswer.True [Except.ok LeafAnswer.False] rfl rfl rfl rfl
  exact ⟨s2, h1, h2, h3⟩

/-- C5: a term ref's reported kind is exactly the kind of its underlying
term, characterized for each of the eight kinds; as_list on a list term
returns fresh element refs in element order, and as_compound on a compound
term returns its functor together with fresh argument refs in argument
order, each ref dereferencing to the corresponding subterm in the resulting
state. -/
theorem term_ref_kind_and_contents (tid : Nat) (s : ComponentState) (t : STerm)
    (h : lookupA tid s.termRefs = some t) :
    TermRefResource.term_type tid s = term_type_of t
  ∧ (term_type_of t = TermType.Atom ↔ ∃ a, t = STerm.Atom a)
  ∧ (term_type_of t = TermType.Integer ↔ ∃ i, t = STerm.Integer i)
  ∧ (term_type_of t = TermType.Float ↔ ∃ f, t = STerm.Float f)
  ∧ (term_type_of t = TermType.Rational ↔ ∃ n d, t = STerm.Rational n d)
  ∧ (term_type_of t = TermType.Str ↔ ∃ a, t = STerm.String a)
  ∧ (term_type_of t = TermType.Lst ↔ ∃ ts, t = STerm.List ts)
  ∧ (term_type_of t = TermType.Compound ↔ ∃ f args, t = STerm.Compound f args)
  ∧ (term_type_of t = TermType.Variable ↔ ∃ v, t = STerm.Var v)
  ∧ (∀ ts, t = STerm.List ts →
      (TermRefResource.as_list tid s).1 = some (allocTermRefs ts s).1
      ∧ (allocTermRefs ts s).1.map
          (fun i => lookupA i (TermRefResource.as_list tid s).2.termRefs)
        = ts.map some)
  ∧ (∀ f args, t = STerm.Compound f args →
      (TermRefResource.as_compound tid s).1 = some (f, (allocTermRefs args s).1)
      ∧ (allocTermRefs args s).1.map
          (fun i => lookupA i (TermRefResource.as_compound tid s).2.termRefs)
        = args.map some) := by
  refine ⟨?_, ?_, ?_, ?_, ?_, ?_, ?_, ?_, ?_, ?_, ?_⟩
  · unfold TermRefResource.term_type
    rw [h]
  · cases t <;> simp [term_type_of]
  · cases t <;> simp [term_type_of]
  · cases t <;> simp [term_type_of]
  · cases t <;> simp [term_type_of]
  · cases t <;> simp [term_type_of]
  · cases t <;> simp [term_type_of]
  · cases t <;> simp [term_type_of]
  · cases t <;> simp [term_type_of]
  · intro ts hts
    subst hts
    have hdef : TermRefResource.as_list tid s
        = (some (allocTermRefs ts s).1, (allocTermRefs ts s).2) := by
      unfold TermRefResource.as_list
      rw [h]
    rw [hdef]
    exact ⟨rfl, (allocTermRefs_spec ts s).2.2⟩
  · intro f args hargs
    subst hargs
    have hdef : TermRefResource.as_compound tid s
        = (some (f, (allocTermRefs args s).1), (allocTermRefs args s).2) := by
      unfold TermRefResource.as_compound
      rw [h]
    rw [hdef]
    exact ⟨rfl, (allocTermRefs_spec args s).2.2⟩

/-- Component state holding a list term and a compound term as term refs. -/
def inspectionComponent : ComponentState :=
  { nextId := 10
  , machines := []
  , queryToMachine := []
  , bindingSets := []
  , termRefs := [(4, STerm.List [STerm.Integer 1, STerm.Atom "a"]),
                 (5, STerm.Compound "point" [STerm.Integer 3, STerm.Integer 4])] }

/-- C5 witness: the contract applied to a concrete list term: the reported
kind is the list kind and the two fresh element refs dereference, in order,
to the two elements. -/
theorem term_ref_kind_and_contents_witness :
    TermRefResource.term_type 4 inspectionComponent = TermType.Lst
  ∧ (TermRefResource.as_list 4 inspectionComponent).1 = some [10, 11]
  ∧ [10, 11].map
      (fun i => lookupA i (TermRefResource.as_list 4 inspectionComponent).2.termRefs)
      = [some (STerm.Integer 1), some (STerm.Atom "a")] := by
  obtain ⟨h1, _, _, _, _, _, _, _, _, hl, _⟩ :=
    term_ref_kind_and_contents 4 inspectionComponent
      (STerm.List [STerm.Integer 1, STerm.Atom "a"]) rfl
  obtain ⟨hl1, hl2⟩ := hl [STerm.Integer 1, STerm.Atom "a"] rfl
  exact ⟨h1, hl1, hl2⟩

/-- C6: a bindings solution behaves as an ordered map from variable name to
term ref: converting a bindings leaf answer stores the bindings in their
given order; variables lists the bound names in stored order; get_binding
on a name not listed returns nothing and changes nothing; and get_binding
on a listed name returns a fresh term ref dereferencing to a term bound to
that name in the set. -/
theorem binding_set_ordered_map (s : ComponentState) (bid : Nat)
    (data : BindingSetData) (name : String)
    (h : lookupA bid s.bindingSets = some data) :
    BindingSetResource.variables bid s = data.bindings.map Prod.fst
  ∧ (name ∉ data.bindings.map Prod.fst →
      BindingSetResource.get_binding bid name s = (none, s))
  ∧ (name ∈ data.bindings.map Prod.fst →
      ∃ t, (BindingSetResource.get_binding bid name s).1 = some s.nextId
        ∧ lookupA s.nextId
            (BindingSetResource.get_binding bid name s).2.termRefs = some t
        ∧ (name, t) ∈ data.bindings)
  ∧ (∀ bs : List (String × STerm), ∀ s0 : ComponentState,
      (convert_leaf_answer (LeafAnswer.LeafAnswer bs) s0).1
          = Solution.Bindings s0.nextId
      ∧ lookupA s0.nextId
          (convert_leaf_answer (LeafAnswer.LeafAnswer bs) s0).2.bindingSets
          = some (BindingSetData.mk bs)) := by
  refine ⟨?_, ?_, ?_, ?_⟩
  · unfold BindingSetResource.variables
    rw [h]
  · intro hname
    have hfind : data.bindings.find? (fun p => p.1 == name) = none := by
      apply List.find?_eq_none.mpr
      intro x hx
      simp only [beq_iff_eq]
      intro hx1
      exact hname (hx1 ▸ List.mem_map_of_mem Prod.fst hx)
    unfold BindingSetResource.get_binding
    simp only [h, hfind]
  · intro hname
    cases hfind : data.bindings.find? (fun p => p.1 == name) with
    | none =>
      exfalso
      obtain ⟨x, hx, hx1⟩ := List.mem_map.mp hname
      have hnone := List.find?_eq_none.mp hfind x hx
      simp [hx1] at hnone
    | some pair =>
      have hp1 : pair.1 = name := by
        have hp := List.find?_some hfind
        simpa using hp
      have hmemp : pair ∈ data.bindings := List.mem_of_find?_eq_some hfind
      refine ⟨pair.2, ?_, ?_, ?_⟩
      · unfold BindingSetResource.get_binding
        simp only [h, hfind]
      · unfold BindingSetResource.get_binding
        simp only [h, hfind]
        exact lookupA_insertA_self s.nextId pair.2 s.termRefs
      · have hpair : (name, pair.2) = pair := by rw [← hp1]
        exact hpair ▸ hmemp
  · intro bs s0
    exact ⟨rfl, lookupA_insertA_self s0.nextId (BindingSetData.mk bs) s0.bindingSets⟩

/-- Component state holding a two-entry binding set. -/
def bindingComponent : ComponentState :=
  { nextId := 7
  , machines := []
  , queryToMachine := []
  , bindingSets := [(3, BindingSetData.mk
      [("X", STerm.Integer 1), ("Y", STerm.Atom "a")])]
  , termRefs := [] }

/-- C6 witness: the ordered-map theorem applied to a concrete binding set:
the names come back in stored order, an absent name returns nothing, and a
listed name dereferences to its bound term. -/
theorem binding_set_ordered_map_witness :
    BindingSetResource.variables 3 bindingComponent = ["X", "Y"]
  ∧ BindingSetResource.get_binding 3 "Z" bindingComponent = (none, bindingComponent)
  ∧ ∃ t, (BindingSetResource.get_binding 3 "X" bindingComponent).1 = some 7
      ∧ lookupA 7
          (BindingSetResource.get_binding 3 "X" bindingComponent).2.termRefs = some t
      ∧ ("X", t) ∈ [("X", STerm.Integer 1), ("Y", STerm.Atom "a")] := by
  have hz := binding_set_ordered_map bindingComponent 3
    (BindingSetData.mk [("X", STerm.Integer 1), ("Y", STerm.Atom "a")]) "Z" rfl
  have hx := binding_set_ordered_map bindingComponent 3
    (BindingSetData.mk [("X", STerm.Integer 1), ("Y", STerm.Atom "a")]) "X" rfl
  refine ⟨hz.1, hz.2.1 (by simp), hx.2.2.1 (by simp)⟩
